import Mathlib

/-!
Shallow embedding of `src/doj_research_agent/evaluation/langfuse_integration.py`
(the `LangfuseTracer` class and its helpers).

Modelling conventions:
* Python floats and ints are modelled as rationals (`ℚ`); Python `bool` is a
  separate constructor, but — as in Python, where `bool` is a subclass of
  `int` — `isinstance(x, (int, float))` and arithmetic treat booleans as 0/1.
* Python dicts are association lists in insertion order; lookup returns the
  last binding of a key, so `{**a, **b}` is list append.
* The Langfuse backend client is an oracle (`Client`) that returns a fixed
  trace id and decides, per call index, whether the call raises an exception.
  Every client call and every `logger` call is recorded as an `Event`, so the
  theorems can talk about what reached the backend and what was logged.
* Python exceptions are the `Except String` part of the state monad `M`;
  `try/except` is `tryCatchM`.  The state (the event log and the call
  counter) survives an exception, matching the fact that calls already made
  have reached the backend.
* A Python method call on `self` is embedded as a function of the tracer
  value; since no method of the class assigns to `self` outside `__init__`,
  the public operations also return the (unchanged) tracer, standing for the
  post-call object state.
-/

namespace DojLangfuse

/-- Python values stored in the dict-shaped inputs of the module. -/
inductive PyVal where
  | str (s : String)
  | num (q : ℚ)
  | bool (b : Bool)
  | dict (entries : List (String × PyVal))

/-- A Python dict, as an association list in insertion order. -/
abbrev Dict := List (String × PyVal)

/-- One step of dict lookup: a binding of the key overrides the accumulator. -/
def getStep (k : String) (acc : Option PyVal) (p : String × PyVal) : Option PyVal :=
  if p.1 == k then some p.2 else acc

/-- Lookup in a Python dict: the last binding of a key wins. -/
def Dict.get (d : Dict) (k : String) : Option PyVal :=
  d.foldl (getStep k) none

/-- Python `d.get(k, default)`. -/
def Dict.getD (d : Dict) (k : String) (v : PyVal) : PyVal :=
  (Dict.get d k).getD v

/-- Python truthiness of a value (`if x:`). -/
def pyTruthy : PyVal → Bool
  | .str s => !(s == "")
  | .num q => !(q == 0)
  | .bool b => b
  | .dict d => !d.isEmpty

/-- Python `isinstance(x, (int, float))`; `bool` is a subclass of `int`. -/
def pyIsNumber : PyVal → Bool
  | .num _ => true
  | .bool _ => true
  | _ => false

/-- Python `float(x)` on a numeric value (booleans count as 0/1). -/
def pyToFloat : PyVal → ℚ
  | .num q => q
  | .bool b => if b then 1 else 0
  | _ => 0

/-- Python `x / 10.0`: succeeds on numbers (booleans as 0/1), raises
`TypeError` otherwise. -/
def pyDivTen : PyVal → Except String ℚ
  | .num q => .ok (q / 10)
  | .bool b => .ok ((if b then (1 : ℚ) else 0) / 10)
  | _ => .error "TypeError"

/-- Python `value == b` for a `bool` right-hand side: `True == 1` and
`False == 0` hold numerically; any other type compares unequal. -/
def pyEqBool (v : PyVal) (b : Bool) : Bool :=
  match v with
  | .bool c => c == b
  | .num q => q == (if b then 1 else 0)
  | _ => false

/-- Python `a or b` on optional strings: `None` and `""` are falsy. -/
def pyOrStr (a b : Option String) : Option String :=
  match a with
  | some s => if s == "" then b else some s
  | none => b

/-- Truthiness of an optional string (`if not self.public_key`). -/
def strTruthy : Option String → Bool
  | some s => !(s == "")
  | none => false

/-- The `TestCase` fields this module reads. -/
structure TestCase where
  title : String
  expected_fraud_flag : Bool

/-- The `EvaluationResult` fields this module reads. -/
structure EvaluationResult where
  accuracy : ℚ
  precision : ℚ
  «recall» : ℚ
  f1_score : ℚ
  timestamp : String
  detailed_results : List Dict
  ragas_scores : Option Dict

/-- Names of scores pushed by the module, encoding the Python f-strings
injectively; `render` gives the exact string the source builds. -/
inductive ScoreName where
  | fraud_detection_accuracy
  | fraud_detection_precision
  | fraud_detection_recall
  | fraud_detection_f1
  | fraud_detection_overall_quality
  | case_accuracy (i : Nat)
  | case_llm_judge_quality (i : Nat)
  | ragas (metric : String)
  | case_accuracy_single

/-- The literal string each score name stands for in the source. -/
def ScoreName.render : ScoreName → String
  | .fraud_detection_accuracy => "fraud_detection_accuracy"
  | .fraud_detection_precision => "fraud_detection_precision"
  | .fraud_detection_recall => "fraud_detection_recall"
  | .fraud_detection_f1 => "fraud_detection_f1"
  | .fraud_detection_overall_quality => "fraud_detection_overall_quality"
  | .case_accuracy i => "case_" ++ toString i ++ "_accuracy"
  | .case_llm_judge_quality i => "case_" ++ toString i ++ "_llm_judge_quality"
  | .ragas metric => "ragas_" ++ metric
  | .case_accuracy_single => "case_accuracy"

/-- Observable actions: backend client calls and logger calls. -/
inductive Event where
  | createTraceId
  | startSpan (name : String)
  | updateTrace (name : String) (metadata : Dict)
  | createScore (trace_id : String) (name : ScoreName) (value : ℚ) (comment : String)
  | spanUpdate (output : Dict)
  | flush
  | shutdown
  | logInfo (msg : String)
  | logWarning (msg : String)
  | logError (msg : String)

/-- Extracts the numeric value of a score-emission event. -/
def Event.scoreValue : Event → Option ℚ
  | .createScore _ _ v _ => some v
  | _ => none

/-- Interpreter state: how many backend calls were attempted so far, and the
chronological event log. -/
structure TraceSt where
  callIdx : Nat
  events : List Event

/-- Computations of the module: state passing plus Python exceptions.  The
state survives an exception (calls already made have reached the backend). -/
def M (α : Type) : Type := TraceSt → TraceSt × Except String α

instance : Monad M where
  pure a := fun s => (s, .ok a)
  bind m f := fun s =>
    match m s with
    | (s1, .ok a) => f a s1
    | (s1, .error e) => (s1, .error e)

/-- Python `raise`. -/
def M.throwErr {α : Type} (e : String) : M α := fun s => (s, .error e)

/-- Python `try: m except Exception as e: h e`. -/
def tryCatchM {α : Type} (m : M α) (h : String → M α) : M α := fun s =>
  match m s with
  | (s1, .ok a) => (s1, .ok a)
  | (s1, .error e) => h e s1

/-- Record a logger call (never raises, not a backend call). -/
def logEvent (e : Event) : M Unit := fun s =>
  ({ s with events := s.events ++ [e] }, .ok ())

/-- The backend client oracle: the trace id it hands out and which calls
(by global call index) raise an exception. -/
structure Client where
  trace_id : String
  fails : Nat → Bool

/-- One backend client call: raises iff the oracle says so, otherwise the
event reaches the backend. -/
def Client.call (c : Client) (e : Event) : M Unit := fun s =>
  if c.fails s.callIdx then
    ({ s with callIdx := s.callIdx + 1 }, .error "backend exception")
  else
    ({ callIdx := s.callIdx + 1, events := s.events ++ [e] }, .ok ())

/-- `self.client.create_trace_id()`. -/
def createTraceId (c : Client) : M String := do
  c.call .createTraceId
  pure c.trace_id

/-- Extract the event log and the outcome of a computation run from the
initial state. -/
def M.run {α : Type} (m : M α) : List Event × Except String α :=
  ((m ⟨0, []⟩).1.events, (m ⟨0, []⟩).2)

/-- The `LangfuseTracer` object state: the attributes `__init__` may set. -/
structure LangfuseTracer where
  enabled : Bool
  hasClient : Bool
  public_key : Option String
  secret_key : Option String
  host : Option String

/-- `LangfuseTracer.__init__` (lines 36-81): enabled-flag resolution from the
parameter or environment, availability gating, credential fallback chains,
silent downgrade to disabled on missing credentials or client-init failure.
Logger calls in the constructor are not recorded. -/
def LangfuseTracer.init (public_key secret_key host : Option String)
    (enabled : Option Bool) (env : String → Option String)
    (langfuse_available : Bool) (client_init_fails : Bool) : LangfuseTracer :=
  let requested : Bool :=
    match enabled with
    | some b => b
    | none => ((env "ENABLE_LANGFUSE_TRACING").getD "true").toLower == "true"
  let enabled1 := requested && langfuse_available
  if !enabled1 then
    { enabled := false, hasClient := false
      public_key := none, secret_key := none, host := none }
  else
    let pk := pyOrStr public_key (env "LANGFUSE_PUBLIC_KEY")
    let sk := pyOrStr secret_key (env "LANGFUSE_SECRET_KEY")
    let h := pyOrStr host (some ((env "LANGFUSE_HOST").getD "https://us.cloud.langfuse.com"))
    if !(strTruthy pk) || !(strTruthy sk) then
      { enabled := false, hasClient := false
        public_key := pk, secret_key := sk, host := h }
    else if client_init_fails then
      { enabled := false, hasClient := false
        public_key := pk, secret_key := sk, host := h }
    else
      { enabled := true, hasClient := true
        public_key := pk, secret_key := sk, host := h }

/-- The trace metadata dict literal of `trace_evaluation_run` (lines
107-114): five fixed keys, then `**(metadata or {})`. -/
def trace_metadata (evaluation_result : EvaluationResult)
    (model_name model_provider : String) (test_cases : List TestCase)
    (metadata : Option Dict) : Dict :=
  [("model_name", PyVal.str model_name),
   ("model_provider", PyVal.str model_provider),
   ("evaluation_timestamp", PyVal.str evaluation_result.timestamp),
   ("test_cases_count", PyVal.num (test_cases.length : ℚ)),
   ("evaluation_type", PyVal.str "fraud_detection")] ++ metadata.getD []

/-- `LangfuseTracer._push_overall_scores` (lines 156-205). -/
def LangfuseTracer.push_overall_scores (t : LangfuseTracer) (c : Client)
    (trace_id : String) (evaluation_result : EvaluationResult)
    (model_name : String) : M Unit :=
  if !t.enabled then pure () else
  tryCatchM
    (do
      c.call (.createScore trace_id .fraud_detection_accuracy
        evaluation_result.accuracy
        ("Overall fraud detection accuracy for " ++ model_name))
      c.call (.createScore trace_id .fraud_detection_precision
        evaluation_result.precision
        ("Fraud detection precision for " ++ model_name))
      c.call (.createScore trace_id .fraud_detection_recall
        evaluation_result.«recall»
        ("Fraud detection recall for " ++ model_name))
      c.call (.createScore trace_id .fraud_detection_f1
        evaluation_result.f1_score
        ("Fraud detection F1 score for " ++ model_name))
      let overall_quality := (evaluation_result.accuracy + evaluation_result.precision +
        evaluation_result.«recall» + evaluation_result.f1_score) / 4
      c.call (.createScore trace_id .fraud_detection_overall_quality
        overall_quality ("Overall quality score for " ++ model_name)))
    (fun e => logEvent (.logError ("Failed to push overall scores: " ++ e)))

/-- The `for i, (result, test_case) in enumerate(zip(...))` loop body of
`_push_case_scores` (lines 213-231). -/
def pushCaseLoop (c : Client) (trace_id : String) :
    Nat → List (Dict × TestCase) → M Unit
  | _, [] => pure ()
  | i, (result, test_case) :: rest => do
    let case_correct := pyTruthy (Dict.getD result "overall_correct" (PyVal.bool false))
    c.call (.createScore trace_id (.case_accuracy (i + 1))
      (if case_correct then 1 else 0)
      ("Case " ++ toString (i + 1) ++ ": " ++ test_case.title))
    match Dict.get result "llm_judgment" with
    | some (PyVal.dict judgment) =>
      match pyDivTen (Dict.getD judgment "overall_quality" (PyVal.num 0)) with
      | .ok v =>
        c.call (.createScore trace_id (.case_llm_judge_quality (i + 1)) v
          ("LLM judge quality for case " ++ toString (i + 1) ++ ": " ++ test_case.title))
      | .error e => M.throwErr e
    | some _ => M.throwErr "AttributeError"
    | none => pure ()
    pushCaseLoop c trace_id (i + 1) rest

/-- `LangfuseTracer._push_case_scores` (lines 207-234). -/
def LangfuseTracer.push_case_scores (t : LangfuseTracer) (c : Client)
    (trace_id : String) (evaluation_result : EvaluationResult)
    (test_cases : List TestCase) : M Unit :=
  if !t.enabled then pure () else
  tryCatchM
    (pushCaseLoop c trace_id 0 (evaluation_result.detailed_results.zip test_cases))
    (fun e => logEvent (.logError ("Failed to push case scores: " ++ e)))

/-- The `for metric_name, score in ragas_scores.items()` loop of
`_push_ragas_scores` (lines 242-249). -/
def pushRagasLoop (c : Client) (trace_id : String) : List (String × PyVal) → M Unit
  | [] => pure ()
  | (metric_name, score) :: rest => do
    if pyIsNumber score then
      c.call (.createScore trace_id (.ragas metric_name) (pyToFloat score)
        ("RAGAS " ++ metric_name ++ " score"))
    else
      pure ()
    pushRagasLoop c trace_id rest

/-- `LangfuseTracer._push_ragas_scores` (lines 236-251). -/
def LangfuseTracer.push_ragas_scores (t : LangfuseTracer) (c : Client)
    (trace_id : String) (ragas_scores : Dict) : M Unit :=
  if !t.enabled then pure () else
  tryCatchM
    (pushRagasLoop c trace_id ragas_scores)
    (fun e => logEvent (.logError ("Failed to push RAGAS scores: " ++ e)))

/-- `LangfuseTracer.trace_evaluation_run` (lines 83-154).  The returned pair
is (post-call object state, Python return value).  The local
`trace_metadata` of the source is the definition of that name, used at its
single use site. -/
def LangfuseTracer.trace_evaluation_run (t : LangfuseTracer) (c : Client)
    (evaluation_result : EvaluationResult) (model_name model_provider : String)
    (test_cases : List TestCase) (metadata : Option Dict) :
    M (LangfuseTracer × Option String) :=
  if !t.enabled then pure (t, none) else
  tryCatchM
    (do
      let trace_id ← createTraceId c
      c.call (.startSpan ("fraud_detection_evaluation_" ++ model_name))
      c.call (.updateTrace ("fraud_detection_evaluation_" ++ model_name)
        (trace_metadata evaluation_result model_name model_provider
          test_cases metadata))
      t.push_overall_scores c trace_id evaluation_result model_name
      t.push_case_scores c trace_id evaluation_result test_cases
      (match evaluation_result.ragas_scores with
       | some rs => if rs.isEmpty then pure () else t.push_ragas_scores c trace_id rs
       | none => pure ())
      c.call (.spanUpdate
        [("accuracy", PyVal.num evaluation_result.accuracy),
         ("precision", PyVal.num evaluation_result.precision),
         ("recall", PyVal.num evaluation_result.«recall»),
         ("f1_score", PyVal.num evaluation_result.f1_score),
         ("total_cases", PyVal.num (test_cases.length : ℚ))])
      c.call .flush
      logEvent (.logInfo ("Evaluation trace created with ID: " ++ trace_id))
      pure (t, some trace_id))
    (fun e => do
      logEvent (.logError ("Failed to create evaluation trace: " ++ e))
      pure (t, none))

/-- `LangfuseTracer.trace_single_case_evaluation` (lines 253-312); the local
`is_correct` of the source is inlined at its two use sites. -/
def LangfuseTracer.trace_single_case_evaluation (t : LangfuseTracer) (c : Client)
    (test_case : TestCase) (prediction : Dict) (model_name : String)
    (metadata : Option Dict) : M (LangfuseTracer × Option String) :=
  if !t.enabled then pure (t, none) else
  tryCatchM
    (do
      let trace_id ← createTraceId c
      c.call (.startSpan ("single_case_evaluation_" ++ model_name))
      c.call (.updateTrace ("single_case_evaluation_" ++ model_name)
        ([("model_name", PyVal.str model_name),
          ("test_case_title", PyVal.str test_case.title),
          ("expected_fraud", PyVal.bool test_case.expected_fraud_flag),
          ("predicted_fraud", Dict.getD prediction "fraud_flag" (PyVal.bool false))]
         ++ metadata.getD []))
      c.call (.createScore trace_id .case_accuracy_single
        (if pyEqBool (Dict.getD prediction "fraud_flag" (PyVal.bool false))
              test_case.expected_fraud_flag
         then 1 else 0)
        ("Case accuracy: " ++ test_case.title))
      c.call (.spanUpdate
        [("correct", PyVal.bool (pyEqBool
            (Dict.getD prediction "fraud_flag" (PyVal.bool false))
            test_case.expected_fraud_flag)),
         ("expected", PyVal.bool test_case.expected_fraud_flag),
         ("predicted", Dict.getD prediction "fraud_flag" (PyVal.bool false))])
      c.call .flush
      pure (t, some trace_id))
    (fun e => do
      logEvent (.logError ("Failed to create single case trace: " ++ e))
      pure (t, none))

/-- `LangfuseTracer.close` (lines 314-321).  Returns the post-call object
state (the Python return value is `None`). -/
def LangfuseTracer.close (t : LangfuseTracer) (c : Client) : M LangfuseTracer :=
  if t.enabled && t.hasClient then
    tryCatchM
      (do
        c.call .shutdown
        logEvent (.logInfo "Langfuse client shut down successfully")
        pure t)
      (fun e => do
        logEvent (.logError ("Error shutting down Langfuse client: " ++ e))
        pure t)
  else
    pure t

/-- A client that never raises. -/
def okClient : Client := ⟨"tid", fun _ => false⟩

/-- A client whose very first call raises. -/
def failFirst : Client := ⟨"tid", fun n => n == 0⟩

/-- A client that raises exactly on call index 3 — in
`trace_evaluation_run` that is the first `create_score` call, inside
`_push_overall_scores`. -/
def failOnly3 : Client := ⟨"tid", fun n => n == 3⟩

/-- A tracer whose construction fully succeeded. -/
def enabledTracer : LangfuseTracer :=
  { enabled := true, hasClient := true
    public_key := some "pk", secret_key := some "sk"
    host := some "https://us.cloud.langfuse.com" }

/-- A tracer constructed with `enabled=False`. -/
def disabledTracer : LangfuseTracer :=
  { enabled := false, hasClient := false
    public_key := none, secret_key := none, host := none }

/-- Recognizes backend score-emission events. -/
def isScoreEvent : Event → Bool
  | .createScore _ _ _ _ => true
  | _ => false

/-- Recognizes the per-case correctness scores of `_push_case_scores`
(`f"case_{i+1}_accuracy"`). -/
def isCaseAccuracyScore : Event → Bool
  | .createScore _ (.case_accuracy _) _ _ => true
  | _ => false

/-- Recognizes `logger.error` events. -/
def isErrorLog : Event → Bool
  | .logError _ => true
  | _ => false

/-- Recognizes backend calls that open a trace or span. -/
def isTraceOpening : Event → Bool
  | .createTraceId => true
  | .startSpan _ => true
  | _ => false

/-- Well-formedness of a `detailed_results` entry, from the spec data model:
`llm_judgment`, when present, is a mapping whose `overall_quality` (default
0) is numeric, so the normalization `/ 10.0` cannot raise. -/
def WFDetailEntry (r : Dict) : Bool :=
  match Dict.get r "llm_judgment" with
  | none => true
  | some (PyVal.dict judgment) =>
    (pyDivTen (Dict.getD judgment "overall_quality" (PyVal.num 0))).toBool
  | some _ => false

/-- Every value a computation can succeed with satisfies `P`. -/
def M.OkVal {α : Type} (m : M α) (P : α → Prop) : Prop :=
  ∀ s s1 a, m s = (s1, Except.ok a) → P a

/-- Total success: from every state the computation returns `ok` with a value
satisfying `P` — no exception ever escapes it. -/
def M.Total {α : Type} (m : M α) (P : α → Prop) : Prop :=
  ∀ s, ∃ s1 a, m s = (s1, Except.ok a) ∧ P a

/-- A concrete evaluation result with the metric values of the spec example
and no per-case details. -/
def erSample : EvaluationResult :=
  ⟨0.8, 0.75, 0.9, 0.82, "2024-01-01T00:00:00", [], none⟩

/-- A concrete test case. -/
def tcSample : TestCase := ⟨"Sample case", true⟩

/-- A concrete test case whose expected flag is `False`. -/
def tcFalse : TestCase := ⟨"No-flag case", false⟩

/-- A detailed-results entry with only an `overall_correct` flag. -/
def dSample : Dict := [("overall_correct", PyVal.bool true)]

/-- Three detailed results, for the length-mismatch example. -/
def erC5 : EvaluationResult :=
  ⟨0.8, 0.75, 0.9, 0.82, "t", [dSample, dSample, dSample], none⟩

/-- Five test cases, for the length-mismatch example. -/
def tcsC5 : List TestCase :=
  [⟨"a", true⟩, ⟨"b", false⟩, ⟨"c", true⟩, ⟨"d", false⟩, ⟨"e", true⟩]

/-- An `llm_judgment` mapping with raw quality 7. -/
def jd7 : Dict := [("overall_quality", PyVal.num 7)]

/-- A detailed-results entry carrying `jd7`. -/
def r7 : Dict := [("overall_correct", PyVal.bool true), ("llm_judgment", PyVal.dict jd7)]

/-- An evaluation result whose single detailed entry carries `jd7`. -/
def er7 : EvaluationResult := ⟨1, 1, 1, 1, "t", [r7], none⟩

/-- An `llm_judgment` mapping with raw quality 15, above the nominal 0-10
scale. -/
def jd15 : Dict := [("overall_quality", PyVal.num 15)]

/-- A detailed-results entry carrying `jd15`. -/
def r15 : Dict := [("overall_correct", PyVal.bool false), ("llm_judgment", PyVal.dict jd15)]

/-- An evaluation result whose single detailed entry carries `jd15`. -/
def er15 : EvaluationResult := ⟨1, 1, 1, 1, "t", [r15], none⟩

/-- Applying `pure` to a state. -/
theorem M.pure_apply {α : Type} (a : α) (s : TraceSt) :
    (pure a : M α) s = (s, Except.ok a) := rfl

/-- Applying a bind to a state. -/
theorem M.bind_apply {α β : Type} (m : M α) (f : α → M β) (s : TraceSt) :
    (m >>= f) s =
      match m s with
      | (s1, Except.ok a) => f a s1
      | (s1, Except.error e) => (s1, Except.error e) := rfl

/-- A call through the never-failing client just records its event. -/
theorem okClient_call (e : Event) (s : TraceSt) :
    okClient.call e s =
      ({ callIdx := s.callIdx + 1, events := s.events ++ [e] }, Except.ok ()) := rfl

theorem okVal_pure {α : Type} {P : α → Prop} {a : α} (h : P a) :
    M.OkVal (pure a) P := by
  intro s s1 b hb
  have hb2 : (s, Except.ok a) = (s1, Except.ok b) := hb
  injection hb2 with h1 h2
  injection h2 with h3
  exact h3 ▸ h

theorem okVal_bind {α β : Type} {m : M α} {f : α → M β} {P : β → Prop}
    (hf : ∀ a, M.OkVal (f a) P) : M.OkVal (m >>= f) P := by
  intro s s1 b hb
  rw [M.bind_apply] at hb
  cases hms : m s with
  | mk s2 r =>
    rw [hms] at hb
    cases r with
    | ok a => exact hf a s2 s1 b hb
    | error e =>
      have hb2 : (s2, (Except.error e : Except String β)) = (s1, Except.ok b) := hb
      injection hb2 with h1 h2
      injection h2

theorem total_tryCatch {α : Type} {m : M α} {h : String → M α} {P : α → Prop}
    (hm : M.OkVal m P) (hh : ∀ e, M.Total (h e) P) :
    M.Total (tryCatchM m h) P := by
  intro s
  cases hms : m s with
  | mk s2 r =>
    cases r with
    | ok a =>
      refine ⟨s2, a, ?_, hm s s2 a hms⟩
      unfold tryCatchM
      rw [hms]
    | error e =>
      obtain ⟨s3, a, he, pa⟩ := hh e s2
      refine ⟨s3, a, ?_, pa⟩
      unfold tryCatchM
      rw [hms]
      exact he

theorem total_log_pure {α : Type} (x : Event) (v : α) {P : α → Prop} (h : P v) :
    M.Total (logEvent x >>= fun _ => pure v) P := fun s =>
  ⟨{ s with events := s.events ++ [x] }, v, rfl, h⟩

theorem total_pure {α : Type} {P : α → Prop} (v : α) (h : P v) :
    M.Total (pure v) P := fun s => ⟨s, v, rfl, h⟩

/-- `trace_evaluation_run` never lets an exception escape and never replaces
the object state: the returned tracer is the receiver itself. -/
theorem trace_evaluation_run_total (t : LangfuseTracer) (c : Client)
    (er : EvaluationResult) (mn mp : String) (tcs : List TestCase)
    (md : Option Dict) :
    M.Total (t.trace_evaluation_run c er mn mp tcs md) (fun a => a.1 = t) := by
  unfold LangfuseTracer.trace_evaluation_run
  cases hE : t.enabled with
  | false =>
    exact total_pure _ rfl
  | true =>
    apply total_tryCatch
    · apply okVal_bind; intro a1
      apply okVal_bind; intro a2
      apply okVal_bind; intro a3
      apply okVal_bind; intro a4
      apply okVal_bind; intro a5
      apply okVal_bind; intro a6
      apply okVal_bind; intro a7
      apply okVal_bind; intro a8
      apply okVal_bind; intro a9
      exact okVal_pure rfl
    · intro e
      exact total_log_pure _ _ rfl

/-- `trace_single_case_evaluation` never lets an exception escape and keeps
the object state. -/
theorem trace_single_case_total (t : LangfuseTracer) (c : Client)
    (tc : TestCase) (pred : Dict) (mn : String) (md : Option Dict) :
    M.Total (t.trace_single_case_evaluation c tc pred mn md) (fun a => a.1 = t) := by
  unfold LangfuseTracer.trace_single_case_evaluation
  cases hE : t.enabled with
  | false =>
    exact total_pure _ rfl
  | true =>
    apply total_tryCatch
    · apply okVal_bind; intro a1
      apply okVal_bind; intro a2
      apply okVal_bind; intro a3
      apply okVal_bind; intro a4
      apply okVal_bind; intro a5
      apply okVal_bind; intro a6
      exact okVal_pure rfl
    · intro e
      exact total_log_pure _ _ rfl

/-- `close` never lets an exception escape and keeps the object state. -/
theorem close_total (t : LangfuseTracer) (c : Client) :
    M.Total (t.close c) (fun a => a = t) := by
  unfold LangfuseTracer.close
  cases hG : t.enabled && t.hasClient with
  | false =>
    exact total_pure _ rfl
  | true =>
    apply total_tryCatch
    · apply okVal_bind; intro a1
      apply okVal_bind; intro a2
      exact okVal_pure rfl
    · intro e
      exact total_log_pure _ _ rfl

/-- Folding the lookup step over a tail either finds a later binding or
keeps the accumulator. -/
theorem foldl_getStep (k : String) (b : Dict) :
    ∀ init, b.foldl (getStep k) init =
      match b.foldl (getStep k) none with
      | some v => some v
      | none => init := by
  induction b with
  | nil => intro init; rfl
  | cons p rest ih =>
    intro init
    simp only [List.foldl_cons]
    rw [ih (getStep k init p), ih (getStep k none p)]
    cases hres : rest.foldl (getStep k) none with
    | some v => rfl
    | none =>
      unfold getStep
      cases hpk : p.1 == k with
      | true => rfl
      | false => rfl

/-- Lookup in a concatenation of dicts: the right-hand dict wins. -/
theorem Dict.get_append (a b : Dict) (k : String) :
    Dict.get (a ++ b) k =
      match Dict.get b k with
      | some v => some v
      | none => Dict.get a k := by
  unfold Dict.get
  rw [List.foldl_append, foldl_getStep]

/-- A binding present in the right-hand dict survives concatenation. -/
theorem Dict.get_append_right (a b : Dict) (k : String) (v : PyVal)
    (h : Dict.get b k = some v) : Dict.get (a ++ b) k = some v := by
  rw [Dict.get_append, h]

/-- The RAGAS loop with a never-failing client succeeds, appends exactly one
score event per numeric entry, and logs no error. -/
theorem pushRagasLoop_ok (tid : String) (l : List (String × PyVal)) :
    ∀ s : TraceSt, ∃ s1 δ,
      pushRagasLoop okClient tid l s = (s1, Except.ok ()) ∧
      s1.events = s.events ++ δ ∧
      δ.countP isScoreEvent = l.countP (fun kv => pyIsNumber kv.2) ∧
      δ.countP isErrorLog = 0 := by
  induction l with
  | nil =>
    intro s
    exact ⟨s, [], rfl, by simp, rfl, rfl⟩
  | cons kv rest ih =>
    intro s
    obtain ⟨mname, score⟩ := kv
    cases hnum : pyIsNumber score with
    | true =>
      obtain ⟨s1, δ, hloop, hev, hcount, herr⟩ :=
        ih ({ callIdx := s.callIdx + 1,
              events := s.events ++ [Event.createScore tid (.ragas mname)
                (pyToFloat score) ("RAGAS " ++ mname ++ " score")] })
      refine ⟨s1, Event.createScore tid (.ragas mname) (pyToFloat score)
        ("RAGAS " ++ mname ++ " score") :: δ, ?_, ?_, ?_, ?_⟩
      · simp only [pushRagasLoop, hnum, if_true, M.bind_apply, okClient_call]
        exact hloop
      · rw [hev]
        simp
      · simp only [List.countP_cons, hnum, hcount]
        simp [isScoreEvent]
      · simpa [isErrorLog] using herr
    | false =>
      obtain ⟨s1, δ, hloop, hev, hcount, herr⟩ := ih s
      refine ⟨s1, δ, ?_, hev, ?_, herr⟩
      · simp only [pushRagasLoop, hnum, if_false, M.bind_apply, M.pure_apply]
        exact hloop
      · simp only [List.countP_cons, hnum, hcount]
        simp

/-- The per-case loop with a never-failing client, on well-formed entries,
succeeds, appends exactly one correctness score per pair, and logs no
error. -/
theorem pushCaseLoop_ok (tid : String) (l : List (Dict × TestCase)) :
    ∀ (i : Nat) (s : TraceSt),
      (∀ r tc, (r, tc) ∈ l → WFDetailEntry r = true) →
      ∃ s1 δ,
        pushCaseLoop okClient tid i l s = (s1, Except.ok ()) ∧
        s1.events = s.events ++ δ ∧
        δ.countP isCaseAccuracyScore = l.length ∧
        δ.countP isErrorLog = 0 := by
  induction l with
  | nil =>
    intro i s _
    exact ⟨s, [], rfl, by simp, rfl, rfl⟩
  | cons head rest ih =>
    intro i s hWF
    obtain ⟨r, tc⟩ := head
    have hWFr : WFDetailEntry r = true := hWF r tc (List.mem_cons_self _ _)
    have hWFrest : ∀ r2 tc2, (r2, tc2) ∈ rest → WFDetailEntry r2 = true :=
      fun r2 tc2 hm => hWF r2 tc2 (List.mem_cons_of_mem _ hm)
    unfold WFDetailEntry at hWFr
    cases hj : Dict.get r "llm_judgment" with
    | none =>
      obtain ⟨s1, δ, hloop, hev, hcount, herr⟩ :=
        ih (i + 1)
          ({ callIdx := s.callIdx + 1,
             events := s.events ++ [Event.createScore tid (.case_accuracy (i + 1))
               (if pyTruthy (Dict.getD r "overall_correct" (PyVal.bool false)) then 1 else 0)
               ("Case " ++ toString (i + 1) ++ ": " ++ tc.title)] }) hWFrest
      refine ⟨s1, Event.createScore tid (.case_accuracy (i + 1))
        (if pyTruthy (Dict.getD r "overall_correct" (PyVal.bool false)) then 1 else 0)
        ("Case " ++ toString (i + 1) ++ ": " ++ tc.title) :: δ, ?_, ?_, ?_, ?_⟩
      · simp only [pushCaseLoop, M.bind_apply, okClient_call, hj, M.pure_apply]
        exact hloop
      · rw [hev]; simp
      · simp only [List.countP_cons, hcount]
        simp [isCaseAccuracyScore]
      · simpa [isErrorLog] using herr
    | some val =>
      rw [hj] at hWFr
      cases val with
      | str sv => simp at hWFr
      | num qv => simp at hWFr
      | bool bv => simp at hWFr
      | dict j =>
        cases hdv : pyDivTen (Dict.getD j "overall_quality" (PyVal.num 0)) with
        | error e =>
          simp [hdv, Except.toBool] at hWFr
        | ok v =>
          obtain ⟨s1, δ, hloop, hev, hcount, herr⟩ :=
            ih (i + 1)
              ({ callIdx := s.callIdx + 2,
                 events := (s.events ++ [Event.createScore tid (.case_accuracy (i + 1))
                   (if pyTruthy (Dict.getD r "overall_correct" (PyVal.bool false)) then 1 else 0)
                   ("Case " ++ toString (i + 1) ++ ": " ++ tc.title)]) ++
                   [Event.createScore tid (.case_llm_judge_quality (i + 1)) v
                     ("LLM judge quality for case " ++ toString (i + 1) ++ ": " ++ tc.title)] })
              hWFrest
          refine ⟨s1, Event.createScore tid (.case_accuracy (i + 1))
              (if pyTruthy (Dict.getD r "overall_correct" (PyVal.bool false)) then 1 else 0)
              ("Case " ++ toString (i + 1) ++ ": " ++ tc.title) ::
            Event.createScore tid (.case_llm_judge_quality (i + 1)) v
              ("LLM judge quality for case " ++ toString (i + 1) ++ ": " ++ tc.title) :: δ,
            ?_, ?_, ?_, ?_⟩
          · simp only [pushCaseLoop, M.bind_apply, okClient_call, hj, hdv, M.pure_apply]
            exact hloop
          · rw [hev]; simp
          · simp only [List.countP_cons, hcount]
            simp [isCaseAccuracyScore]
          · simpa [isErrorLog] using herr

/-- C1: counterexample to the claim as stated.  With an enabled reporter and
a backend client whose only failing call is the first `create_score` (call
index 3, inside `_push_overall_scores`), an exception is raised and logged
during the reporting sequence, yet `trace_evaluation_run` returns the trace
id, not `None`: the inner `try/except` of the score-pushing helper catches
the exception and the run continues. -/
theorem C1_counterexample :
    (M.run (enabledTracer.trace_evaluation_run failOnly3 erSample "gpt" "openai" [] none)).1.countP
        isErrorLog = 1 ∧
    (M.run (enabledTracer.trace_evaluation_run failOnly3 erSample "gpt" "openai" [] none)).2 =
      Except.ok (enabledTracer, some "tid") ∧
    (Except.ok (enabledTracer, some "tid") :
        Except String (LangfuseTracer × Option String)) ≠
      Except.ok (enabledTracer, none) := by
  refine ⟨rfl, rfl, fun h => ?_⟩
  injection h with h1
  injection h1 with ha hb
  exact Option.noConfusion hb

/-- C1 (amended): on an enabled reporter, any exception raised during
`trace_evaluation_run` or `trace_single_case_evaluation` is caught and
logged and never propagates to the caller (both operations always return
`ok`).  An exception raised outside the score-pushing helpers (here: at the
very first backend call) yields a `None` return with the error logged once,
for every input; an exception raised inside a score-pushing helper is caught
and logged within the helper and the run continues, returning the trace id
when the rest of the sequence succeeds. -/
theorem C1_amended :
    (∀ (t : LangfuseTracer) (c : Client) (er : EvaluationResult) (mn mp : String)
       (tcs : List TestCase) (md : Option Dict) (s : TraceSt),
       ∃ s1 a, t.trace_evaluation_run c er mn mp tcs md s = (s1, Except.ok a)) ∧
    (∀ (t : LangfuseTracer) (c : Client) (tc : TestCase) (pred : Dict) (mn : String)
       (md : Option Dict) (s : TraceSt),
       ∃ s1 a, t.trace_single_case_evaluation c tc pred mn md s = (s1, Except.ok a)) ∧
    (∀ (er : EvaluationResult) (mn mp : String) (tcs : List TestCase) (md : Option Dict),
       M.run (enabledTracer.trace_evaluation_run failFirst er mn mp tcs md) =
         ([Event.logError "Failed to create evaluation trace: backend exception"],
           Except.ok (enabledTracer, none))) ∧
    (∀ (tc : TestCase) (pred : Dict) (mn : String) (md : Option Dict),
       M.run (enabledTracer.trace_single_case_evaluation failFirst tc pred mn md) =
         ([Event.logError "Failed to create single case trace: backend exception"],
           Except.ok (enabledTracer, none))) ∧
    (M.run (enabledTracer.trace_evaluation_run failOnly3 erSample "gpt" "openai" [] none)).2 =
      Except.ok (enabledTracer, some "tid") ∧
    (M.run (enabledTracer.trace_evaluation_run failOnly3 erSample "gpt" "openai" [] none)).1.countP
        isErrorLog = 1 := by
  refine ⟨?_, ?_, fun er mn mp tcs md => rfl, fun tc pred mn md => rfl, rfl, rfl⟩
  · intro t c er mn mp tcs md s
    obtain ⟨s1, a, h, _⟩ := trace_evaluation_run_total t c er mn mp tcs md s
    exact ⟨s1, a, h⟩
  · intro t c tc pred mn md s
    obtain ⟨s1, a, h, _⟩ := trace_single_case_total t c tc pred mn md s
    exact ⟨s1, a, h⟩

/-- C2: if the reporter has `enabled = false`, every public operation makes
no backend call at all (the event log stays empty, so in particular no
score-emission and no trace-opening call is made) and returns `None` (for
`close`: returns with no effect). -/
theorem C2_disabled_noop (t : LangfuseTracer) (c : Client) (er : EvaluationResult)
    (mn mp : String) (tcs : List TestCase) (md : Option Dict)
    (tc : TestCase) (pred : Dict) (h : t.enabled = false) :
    M.run (t.trace_evaluation_run c er mn mp tcs md) = ([], Except.ok (t, none)) ∧
    M.run (t.trace_single_case_evaluation c tc pred mn md) = ([], Except.ok (t, none)) ∧
    M.run (t.close c) = ([], Except.ok t) := by
  obtain ⟨en, hc, pk, sk, ho⟩ := t
  have h2 : en = false := h
  subst h2
  exact ⟨rfl, rfl, rfl⟩

/-- C2 witness: the disabled tracer on concrete inputs. -/
theorem C2_disabled_noop_witness :
    disabledTracer.enabled = false ∧
    M.run (disabledTracer.trace_evaluation_run okClient erSample "m" "p" [] none) =
      ([], Except.ok (disabledTracer, none)) ∧
    M.run (disabledTracer.trace_single_case_evaluation okClient tcSample [] "m" none) =
      ([], Except.ok (disabledTracer, none)) ∧
    M.run (disabledTracer.close okClient) = ([], Except.ok disabledTracer) :=
  ⟨rfl, C2_disabled_noop disabledTracer okClient erSample "m" "p" [] none tcSample [] rfl⟩

/-- C3: the trace metadata of the full-run operation is the five fixed keys
(model name, model provider, evaluation timestamp, test case count,
evaluation type) followed by the caller-supplied mapping, and since the last
binding of a key wins, any key present in the caller-supplied mapping keeps
the caller-supplied value in the merged metadata. -/
theorem C3_metadata_merge (er : EvaluationResult) (mn mp : String)
    (tcs : List TestCase) (md : Dict) :
    trace_metadata er mn mp tcs (some md) =
      [("model_name", PyVal.str mn),
       ("model_provider", PyVal.str mp),
       ("evaluation_timestamp", PyVal.str er.timestamp),
       ("test_cases_count", PyVal.num (tcs.length : ℚ)),
       ("evaluation_type", PyVal.str "fraud_detection")] ++ md ∧
    (∀ k v, Dict.get md k = some v →
      Dict.get (trace_metadata er mn mp tcs (some md)) k = some v) := by
  refine ⟨rfl, fun k v h => ?_⟩
  exact Dict.get_append_right _ _ _ _ h

/-- C3 witness: a caller-supplied `model_name` overrides the fixed key. -/
theorem C3_metadata_merge_witness :
    Dict.get [("model_name", PyVal.str "caller")] "model_name" = some (PyVal.str "caller") ∧
    Dict.get (trace_metadata erSample "m" "p" [] (some [("model_name", PyVal.str "caller")]))
      "model_name" = some (PyVal.str "caller") :=
  ⟨rfl, (C3_metadata_merge erSample "m" "p" [] _).2 "model_name" _ rfl⟩

/-- C4: `_push_overall_scores` emits the four metric scores followed by the
overall-quality score whose value is the unweighted mean
(accuracy + precision + recall + f1_score) / 4; on the spec example
(0.8, 0.75, 0.9, 0.82) the emitted value is 0.8175. -/
theorem C4_overall_quality_mean (er : EvaluationResult) (mn : String) :
    (M.run (enabledTracer.push_overall_scores okClient "tid" er mn)).1 =
      [Event.createScore "tid" .fraud_detection_accuracy er.accuracy
        ("Overall fraud detection accuracy for " ++ mn),
       Event.createScore "tid" .fraud_detection_precision er.precision
        ("Fraud detection precision for " ++ mn),
       Event.createScore "tid" .fraud_detection_recall er.«recall»
        ("Fraud detection recall for " ++ mn),
       Event.createScore "tid" .fraud_detection_f1 er.f1_score
        ("Fraud detection F1 score for " ++ mn),
       Event.createScore "tid" .fraud_detection_overall_quality
        ((er.accuracy + er.precision + er.«recall» + er.f1_score) / 4)
        ("Overall quality score for " ++ mn)] ∧
    ((M.run (enabledTracer.push_overall_scores okClient "tid" erSample "m")).1.get? 4).bind
      Event.scoreValue = some 0.8175 := by
  constructor
  · rfl
  · show some (((0.8 : ℚ) + 0.75 + 0.9 + 0.82) / 4) = some (0.8175 : ℚ)
    norm_num

/-- C5: `_push_case_scores` pairs `detailed_results` with `test_cases`
positionally and, on well-formed entries, emits exactly
`min detailed_results.length test_cases.length` per-case correctness
scores, raising no error and logging none when the lengths differ; with 3
detailed results and 5 test cases exactly 3 per-case scores are emitted. -/
theorem C5_case_scores_shorter (er : EvaluationResult) (tcs : List TestCase)
    (hWF : ∀ r ∈ er.detailed_results, WFDetailEntry r = true) :
    (M.run (enabledTracer.push_case_scores okClient "tid" er tcs)).1.countP
        isCaseAccuracyScore = min er.detailed_results.length tcs.length ∧
    (M.run (enabledTracer.push_case_scores okClient "tid" er tcs)).2 = Except.ok () ∧
    (M.run (enabledTracer.push_case_scores okClient "tid" er tcs)).1.countP isErrorLog = 0 ∧
    (M.run (enabledTracer.push_case_scores okClient "tid" erC5 tcsC5)).1.countP
        isCaseAccuracyScore = 3 := by
  obtain ⟨s1, δ, hloop, hev, hcount, herr⟩ :=
    pushCaseLoop_ok "tid" (er.detailed_results.zip tcs) 0 ⟨0, []⟩
      (fun r tc hm => hWF r (List.of_mem_zip hm).1)
  have hrun : enabledTracer.push_case_scores okClient "tid" er tcs ⟨0, []⟩ =
      (s1, Except.ok ()) := by
    show tryCatchM (pushCaseLoop okClient "tid" 0 (er.detailed_results.zip tcs))
      (fun e => logEvent (.logError ("Failed to push case scores: " ++ e))) ⟨0, []⟩ = _
    unfold tryCatchM
    rw [hloop]
  have hevents : (M.run (enabledTracer.push_case_scores okClient "tid" er tcs)).1 = δ := by
    show (enabledTracer.push_case_scores okClient "tid" er tcs ⟨0, []⟩).1.events = δ
    rw [hrun]
    simpa using hev
  refine ⟨?_, ?_, ?_, rfl⟩
  · rw [hevents, hcount]
    exact List.length_zip _ _
  · show (enabledTracer.push_case_scores okClient "tid" er tcs ⟨0, []⟩).2 = Except.ok ()
    rw [hrun]
  · rw [hevents, herr]

/-- C5 witness: the 3-results / 5-cases example. -/
theorem C5_case_scores_shorter_witness :
    (∀ r ∈ erC5.detailed_results, WFDetailEntry r = true) ∧
    (M.run (enabledTracer.push_case_scores okClient "tid" erC5 tcsC5)).1.countP
        isCaseAccuracyScore = min erC5.detailed_results.length tcsC5.length ∧
    min erC5.detailed_results.length tcsC5.length = 3 :=
  ⟨by intro r hm; fin_cases hm <;> rfl,
   (C5_case_scores_shorter erC5 tcsC5 (by intro r hm; fin_cases hm <;> rfl)).1,
   rfl⟩

/-- C6: for a detailed-results entry whose `llm_judgment` mapping holds a
numeric `overall_quality` q, the emitted LLM-judge quality score has value
q / 10; a raw value of 7 yields 0.7, and a raw value of 15 yields 1.5 —
no clamping above 1. -/
theorem C6_llm_judge_normalized (r j : Dict) (tc : TestCase)
    (q a p rc f1 : ℚ) (ts : String)
    (h1 : Dict.get r "llm_judgment" = some (PyVal.dict j))
    (h2 : Dict.get j "overall_quality" = some (PyVal.num q)) :
    (∃ cm, (M.run (enabledTracer.push_case_scores okClient "tid"
        ⟨a, p, rc, f1, ts, [r], none⟩ [tc])).1.get? 1 =
      some (Event.createScore "tid" (.case_llm_judge_quality 1) (q / 10) cm)) ∧
    ((M.run (enabledTracer.push_case_scores okClient "tid" er7 [tcSample])).1.get? 1).bind
      Event.scoreValue = some 0.7 ∧
    ((M.run (enabledTracer.push_case_scores okClient "tid" er15 [tcSample])).1.get? 1).bind
      Event.scoreValue = some 1.5 := by
  have hd : Dict.getD j "overall_quality" (PyVal.num 0) = PyVal.num q := by
    rw [Dict.getD, h2]
    rfl
  refine ⟨⟨"LLM judge quality for case " ++ toString 1 ++ ": " ++ tc.title, ?_⟩, ?_, ?_⟩
  · simp only [LangfuseTracer.push_case_scores, pushCaseLoop, M.bind_apply,
      okClient_call, h1, hd, pyDivTen, M.pure_apply, M.run]
    rfl
  · show some ((7 : ℚ) / 10) = some (0.7 : ℚ)
    norm_num
  · show some ((15 : ℚ) / 10) = some (1.5 : ℚ)
    norm_num

/-- C6 witness: the concrete entry `r7` with raw quality 7. -/
theorem C6_llm_judge_normalized_witness :
    Dict.get r7 "llm_judgment" = some (PyVal.dict jd7) ∧
    Dict.get jd7 "overall_quality" = some (PyVal.num 7) ∧
    (∃ cm, (M.run (enabledTracer.push_case_scores okClient "tid"
        ⟨1, 1, 1, 1, "t", [r7], none⟩ [tcSample])).1.get? 1 =
      some (Event.createScore "tid" (.case_llm_judge_quality 1) ((7 : ℚ) / 10) cm)) :=
  ⟨rfl, rfl, (C6_llm_judge_normalized r7 jd7 tcSample 7 1 1 1 1 "t" rfl rfl).1⟩

/-- C7: in the single-case operation, the emitted correctness score is
computed by exact equality of the predicted boolean flag and the expected
boolean flag: its value is 1 when they are equal and 0 otherwise. -/
theorem C7_single_case_exact_equality (tc : TestCase) (pred : Dict) (p : Bool)
    (mn : String) (md : Option Dict)
    (h : Dict.get pred "fraud_flag" = some (PyVal.bool p)) :
    (M.run (enabledTracer.trace_single_case_evaluation okClient tc pred mn md)).1.get? 3 =
      some (Event.createScore "tid" .case_accuracy_single
        (if p == tc.expected_fraud_flag then 1 else 0)
        ("Case accuracy: " ++ tc.title)) := by
  have hx : Dict.getD pred "fraud_flag" (PyVal.bool false) = PyVal.bool p := by
    rw [Dict.getD, h]
    rfl
  simp only [LangfuseTracer.trace_single_case_evaluation, hx, M.run]
  rfl

/-- C7 witness: a matching prediction on the concrete test case. -/
theorem C7_single_case_exact_equality_witness :
    Dict.get [("fraud_flag", PyVal.bool true)] "fraud_flag" = some (PyVal.bool true) ∧
    (M.run (enabledTracer.trace_single_case_evaluation okClient tcSample
        [("fraud_flag", PyVal.bool true)] "m" none)).1.get? 3 =
      some (Event.createScore "tid" .case_accuracy_single
        (if true == tcSample.expected_fraud_flag then 1 else 0)
        ("Case accuracy: " ++ tcSample.title)) :=
  ⟨rfl, C7_single_case_exact_equality tcSample _ true "m" none rfl⟩

/-- C8: `_push_ragas_scores` emits exactly one score per entry whose value
is numeric in the Python sense and silently skips every non-numeric entry,
never failing; a mapping with one numeric and one string value yields
exactly one emitted score. -/
theorem C8_ragas_numeric_only (rs : Dict) :
    (M.run (enabledTracer.push_ragas_scores okClient "tid" rs)).1.countP isScoreEvent
        = rs.countP (fun kv => pyIsNumber kv.2) ∧
    (M.run (enabledTracer.push_ragas_scores okClient "tid" rs)).2 = Except.ok () ∧
    (M.run (enabledTracer.push_ragas_scores okClient "tid"
        [("faithfulness", PyVal.num 0.9), ("note", PyVal.str "n/a")])).1.countP
        isScoreEvent = 1 := by
  obtain ⟨s1, δ, hloop, hev, hcount, herr⟩ := pushRagasLoop_ok "tid" rs ⟨0, []⟩
  have hrun : enabledTracer.push_ragas_scores okClient "tid" rs ⟨0, []⟩ =
      (s1, Except.ok ()) := by
    show tryCatchM (pushRagasLoop okClient "tid" rs)
      (fun e => logEvent (.logError ("Failed to push RAGAS scores: " ++ e))) ⟨0, []⟩ = _
    unfold tryCatchM
    rw [hloop]
  have hevents : (M.run (enabledTracer.push_ragas_scores okClient "tid" rs)).1 = δ := by
    show (enabledTracer.push_ragas_scores okClient "tid" rs ⟨0, []⟩).1.events = δ
    rw [hrun]
    simpa using hev
  refine ⟨?_, ?_, rfl⟩
  · rw [hevents, hcount]
  · show (enabledTracer.push_ragas_scores okClient "tid" rs ⟨0, []⟩).2 = Except.ok ()
    rw [hrun]

/-- C9: the enabled/disabled state is a latch fixed at construction:
constructing with `enabled=False` yields a disabled reporter; every public
operation returns the receiver tracer unchanged (so no operation re-enables
a disabled reporter); and while disabled, no operation emits any score. -/
theorem C9_enabled_latch :
    (∀ (pk sk h : Option String) (env : String → Option String)
       (avail cif : Bool),
       (LangfuseTracer.init pk sk h (some false) env avail cif).enabled = false) ∧
    (∀ (t : LangfuseTracer) (c : Client) (er : EvaluationResult) (mn mp : String)
       (tcs : List TestCase) (md : Option Dict) (s : TraceSt),
       ∃ s1 r, t.trace_evaluation_run c er mn mp tcs md s = (s1, Except.ok (t, r))) ∧
    (∀ (t : LangfuseTracer) (c : Client) (tc : TestCase) (pred : Dict) (mn : String)
       (md : Option Dict) (s : TraceSt),
       ∃ s1 r, t.trace_single_case_evaluation c tc pred mn md s = (s1, Except.ok (t, r))) ∧
    (∀ (t : LangfuseTracer) (c : Client) (s : TraceSt),
       ∃ s1, t.close c s = (s1, Except.ok t)) ∧
    (∀ (t : LangfuseTracer) (c : Client) (er : EvaluationResult) (mn mp : String)
       (tcs : List TestCase) (md : Option Dict) (tc : TestCase) (pred : Dict),
       t.enabled = false →
       (M.run (t.trace_evaluation_run c er mn mp tcs md)).1.countP isScoreEvent = 0 ∧
       (M.run (t.trace_single_case_evaluation c tc pred mn md)).1.countP isScoreEvent = 0 ∧
       (M.run (t.close c)).1.countP isScoreEvent = 0) := by
  refine ⟨fun pk sk h env avail cif => rfl, ?_, ?_, ?_, ?_⟩
  · intro t c er mn mp tcs md s
    obtain ⟨s1, a, hrun, ha⟩ := trace_evaluation_run_total t c er mn mp tcs md s
    obtain ⟨a1, a2⟩ := a
    have ha2 : a1 = t := ha
    subst ha2
    exact ⟨s1, a2, hrun⟩
  · intro t c tc pred mn md s
    obtain ⟨s1, a, hrun, ha⟩ := trace_single_case_total t c tc pred mn md s
    obtain ⟨a1, a2⟩ := a
    have ha2 : a1 = t := ha
    subst ha2
    exact ⟨s1, a2, hrun⟩
  · intro t c s
    obtain ⟨s1, a, hrun, ha⟩ := close_total t c s
    subst ha
    exact ⟨s1, hrun⟩
  · intro t c er mn mp tcs md tc pred h
    obtain ⟨en, hc, pk, sk, ho⟩ := t
    have h2 : en = false := h
    subst h2
    exact ⟨rfl, rfl, rfl⟩

/-- C9 witness: a reporter constructed with `enabled=False` and the disabled
tracer on concrete inputs. -/
theorem C9_enabled_latch_witness :
    (LangfuseTracer.init none none none (some false) (fun _ => none) true false).enabled
        = false ∧
    disabledTracer.enabled = false ∧
    (M.run (disabledTracer.trace_evaluation_run okClient erSample "m" "p" [] none)).1.countP
        isScoreEvent = 0 :=
  ⟨C9_enabled_latch.1 none none none (fun _ => none) true false, rfl,
   (C9_enabled_latch.2.2.2.2 disabledTracer okClient erSample "m" "p" [] none
     tcSample [] rfl).1⟩

/-- C10: in the single-case operation, a prediction lacking the
`fraud_flag` key is treated as predicting `False`, both in the correctness
computation and in the recorded metadata and span output; with an expected
flag of `False` the emitted correctness score is exactly 1. -/
theorem C10_missing_flag_false (tc : TestCase) (pred : Dict)
    (mn : String) (md : Option Dict)
    (h : Dict.get pred "fraud_flag" = none)
    (hE : tc.expected_fraud_flag = false) :
    (M.run (enabledTracer.trace_single_case_evaluation okClient tc pred mn md)).1.get? 3 =
      some (Event.createScore "tid" .case_accuracy_single 1
        ("Case accuracy: " ++ tc.title)) ∧
    (M.run (enabledTracer.trace_single_case_evaluation okClient tc pred mn md)).1.get? 4 =
      some (Event.spanUpdate
        [("correct", PyVal.bool true),
         ("expected", PyVal.bool false),
         ("predicted", PyVal.bool false)]) ∧
    (M.run (enabledTracer.trace_single_case_evaluation okClient tc pred mn md)).1.get? 2 =
      some (Event.updateTrace ("single_case_evaluation_" ++ mn)
        ([("model_name", PyVal.str mn),
          ("test_case_title", PyVal.str tc.title),
          ("expected_fraud", PyVal.bool false),
          ("predicted_fraud", PyVal.bool false)] ++ md.getD [])) := by
  have hx : Dict.getD pred "fraud_flag" (PyVal.bool false) = PyVal.bool false := by
    rw [Dict.getD, h]
    rfl
  obtain ⟨title, ef⟩ := tc
  have hE2 : ef = false := hE
  subst hE2
  refine ⟨?_, ?_, ?_⟩ <;>
    (simp only [LangfuseTracer.trace_single_case_evaluation, hx, M.run]; rfl)

/-- C10 witness: the empty prediction on a test case expecting `False`. -/
theorem C10_missing_flag_false_witness :
    Dict.get ([] : Dict) "fraud_flag" = none ∧
    tcFalse.expected_fraud_flag = false ∧
    (M.run (enabledTracer.trace_single_case_evaluation okClient tcFalse [] "m" none)).1.get? 3 =
      some (Event.createScore "tid" .case_accuracy_single 1
        ("Case accuracy: " ++ tcFalse.title)) :=
  ⟨rfl, rfl, (C10_missing_flag_false tcFalse [] "m" none rfl rfl).1⟩

end DojLangfuse
